import Mathlib

/-!
Verification development for the ViranumPro order-lifecycle engine.

Shallow embedding of the three source files:
  * `app/main.py`   — `TTLCache`, the watcher loop `_poll_order_updates`,
    and the `buy_maxprice` handler's call into the client;
  * `app/services/fivesim.py` — `FiveSimClient._request` (retry loop) and
    `FiveSimClient.buy_activation` (query-parameter construction).

Machine conventions: Python `time.time()` values are modelled as `Nat`
time stamps passed explicitly; Python `None` is `Option.none`; Python's
`hash((text, date))` fallback SMS fingerprint is an arbitrary function
`Option String → Option String → Int` over which all watcher theorems are
universally quantified (so any concrete hash, collisions included, is an
instance).
-/

namespace ViranumPro

/-! ## TTLCache (`app/main.py` lines 53–69)

`_store : Dict[str, Tuple[float, Any]]` is modelled as a function
`String → Option (Nat × α)`; `get` returns the Python return value paired
with the cache state after the lookup (the expired-entry pop is the only
mutation `get` performs). -/

structure TTLCache (α : Type) where
  store : String → Option (Nat × α)

/-- Source `TTLCache.get`: return `none` on a missing key; on a present
entry `(exp, value)`, evict and return `none` when `exp < now`, else
return the stored value. -/
def TTLCache.get {α : Type} (c : TTLCache α) (now : Nat) (key : String) :
    Option α × TTLCache α :=
  match c.store key with
  | none => (none, c)
  | some (exp, v) =>
      if exp < now then
        (none, ⟨fun k => if k = key then none else c.store k⟩)
      else
        (some v, c)

/-- Source `TTLCache.set`: store `(time.time() + ttl, value)` under `key`. -/
def TTLCache.set {α : Type} (c : TTLCache α) (now : Nat) (key : String)
    (v : α) (ttl : Nat) : TTLCache α :=
  ⟨fun k => if k = key then some (now + ttl, v) else c.store k⟩

/-- The cache as constructed by `TTLCache.__init__`: empty store. -/
def TTLCache.empty (α : Type) : TTLCache α := ⟨fun _ => none⟩

/-- Python `get` returns the stored value itself, so a stored `None`
(Lean `Option.none` at type `Option β`) collapses with the miss answer at
the caller. `pyGet` is the value the Python caller observes. -/
def TTLCache.pyGet {β : Type} (c : TTLCache (Option β)) (now : Nat)
    (key : String) : Option β × TTLCache (Option β) :=
  let r := c.get now key
  (r.1.join, r.2)

/-- Source `on_prices` (`app/main.py` lines 271–285): the provider fetch is
issued exactly when `cache.get(cache_key)` returned `None`
(`if cached is None:`). -/
def pricesWillFetch {β : Type} (c : TTLCache (Option β)) (now : Nat)
    (key : String) : Bool :=
  ((c.pyGet now key).1).isNone

/-! ## FiveSimClient (`app/services/fivesim.py`)

The `_request` retry loop is embedded as a pure function over an
environment `env : Nat → AttemptOutcome` giving the outcome of each HTTP
attempt (a response with a status code and body, or a network-level
`httpx.HTTPError`). -/

/-- Outcome of one HTTP attempt inside `_request`. -/
inductive AttemptOutcome where
  | response (statusCode : Nat) (body : String)
  | netError
deriving DecidableEq

/-- Errors `_request` can raise: the typed `FiveSimError` carrying the
response status, or the last network error. -/
inductive ReqError where
  | fivesim (statusCode : Nat)
  | net
deriving DecidableEq

/-- Result of `_request`: a decoded body returned, or an exception raised.
`assertFail` marks the (unreachable) `assert last_exc is not None` line. -/
inductive ReqOutcome where
  | ok (body : String)
  | raised (e : ReqError)
  | assertFail
deriving DecidableEq

/-- Source `_request` attempt loop (`fivesim.py` lines 110–148), from
attempt index `idx` with `left` attempts remaining and the last stored
exception. Returns the outcome and the number of attempts performed.
A response with status `≥ 400` raises `FiveSimError`; that error is
re-raised immediately when `400 ≤ s < 500` and `s ≠ 429`, otherwise it is
stored and the loop retries; network errors are stored and retried; when
attempts are exhausted the stored exception is raised. -/
def reqLoopFrom (env : Nat → AttemptOutcome) (idx : Nat) :
    Nat → Option ReqError → ReqOutcome × Nat
  | 0, lastExc =>
      (match lastExc with
       | some e => .raised e
       | none => .assertFail, 0)
  | left + 1, _ =>
      match env idx with
      | .response s body =>
          if 400 ≤ s then
            if s < 500 ∧ s ≠ 429 then
              (.raised (.fivesim s), 1)
            else
              let r := reqLoopFrom env (idx + 1) left (some (.fivesim s))
              (r.1, r.2 + 1)
          else
            (.ok body, 1)
      | .netError =>
          let r := reqLoopFrom env (idx + 1) left (some .net)
          (r.1, r.2 + 1)

/-- Source `_request`: `for attempt in range(self._retries + 1)` starting
with no stored exception. -/
def fiveSimRequest (env : Nat → AttemptOutcome) (retries : Nat) :
    ReqOutcome × Nat :=
  reqLoopFrom env 0 (retries + 1) none

/-- Source `FiveSimClient.__init__` default: `retries: int = 2`. -/
def defaultRetries : Nat := 2

/-- An HTTP request as assembled by a client method: method, path, and the
query parameters actually placed in `params`. -/
structure HttpRequest where
  method : String
  path : String
  params : List (String × String)
deriving DecidableEq

/-- Source `buy_activation` (`fivesim.py` lines 185–213): path from the
three segments, and each optional argument appended to `params` exactly
when it `is not None` — including `maxPrice`, which is appended whenever
`max_price is not None`, with no reference to `operator`. Numeric
arguments are modelled as `Int` (`str()` rendering via `toString`). -/
def buy_activation (country operator product : String)
    (forwarding : Option Int) (number : Option String) (reuse : Option Int)
    (voice : Option Int) (referral : Option String)
    (max_price : Option Int) : HttpRequest :=
  { method := "GET"
    path := "/v1/user/buy/activation/" ++ country ++ "/" ++ operator ++ "/" ++ product
    params :=
      (match forwarding with | some f => [("forwarding", toString f)] | none => []) ++
      (match number with | some n => [("number", n)] | none => []) ++
      (match reuse with | some r => [("reuse", toString r)] | none => []) ++
      (match voice with | some v => [("voice", toString v)] | none => []) ++
      (match referral with | some r => [("ref", r)] | none => []) ++
      (match max_price with | some m => [("maxPrice", toString m)] | none => []) }

/-- Source `buy_maxprice` handler (`app/main.py` lines 421–428): the bot's
buy flow calls `buy_activation` passing
`max_price if operator == "any" else None` and no other optional
arguments. -/
def buy_flow_request (country operator product : String)
    (max_price : Option Int) : HttpRequest :=
  buy_activation country operator product none none none none none
    (if operator = "any" then max_price else none)

/-! ## Order watcher (`app/main.py` `_poll_order_updates`, lines 141–184) -/

/-- One entry of the `sms` list of a check response: the fields the loop
reads via `s.get(...)`, each possibly absent. -/
structure SmsEntry where
  id : Option Int
  code : Option String
  text : Option String
  date : Option String
deriving DecidableEq

/-- One successful check response as the loop consumes it: `status` is the
result of `str(data.get("status"))` (always a string), `sms` the result of
`data.get("sms") or []`. -/
structure PollResp where
  status : String
  sms : List SmsEntry
deriving DecidableEq

/-- Source line 177: the terminal status set. -/
def terminalSet : List String := ["FINISHED", "CANCELED", "TIMEOUT", "BANNED"]

/-- The watcher's per-order mutable state: `seen_sms_ids` (a set of ints,
modelled as the list of inserted keys), `last_status`, and the remaining
`backoff` list. -/
structure WatcherState where
  seen : List Int
  lastStatus : Option String
  backoff : List Nat
deriving DecidableEq

/-- Source lines 143–145: `backoff = [2, 4, 8, 15, 30]`,
`seen_sms_ids = set()`, `last_status = None`. -/
def backoffSchedule : List Nat := [2, 4, 8, 15, 30]

/-- Initial watcher state of `_poll_order_updates`. -/
def initState : WatcherState := ⟨[], none, backoffSchedule⟩

/-- Source lines 159–164: the dedup key of an SMS entry — the provider id
when present, else `hash((text, date))` for the ambient hash function `h`. -/
def smsKey (h : Option String → Option String → Int) (s : SmsEntry) : Int :=
  match s.id with
  | some i => i
  | none => h s.text s.date

/-- Source lines 158–168: walk the `sms` list; for each entry whose key is
not in `seen`, insert the key, and when the entry's `code` is truthy
(present and non-empty) record the pair `(key, str(code))` in iteration
order. Returns the updated seen-set and the recorded pairs. -/
def pollSms (h : Option String → Option String → Int) (seen : List Int) :
    List SmsEntry → List Int × List (Int × String)
  | [] => (seen, [])
  | s :: rest =>
      let sid := smsKey h s
      if sid ∈ seen then
        pollSms h seen rest
      else
        let r := pollSms h (sid :: seen) rest
        (r.1,
          match s.code with
          | some c => if c = "" then r.2 else (sid, c) :: r.2
          | none => r.2)

/-- A notification emitted by the watcher: one combined new-codes message
(tagged with the dedup key each code came from, which the rendered text
drops) or one status-change message. -/
inductive Notif where
  | codes (pairs : List (Int × String))
  | statusChange (s : String)
deriving DecidableEq

/-- Everything observable about a watcher run over a finite list of poll
outcomes: the notifications emitted in order, the backoff delays slept
after successful non-terminal polls, the fixed recovery delays slept after
failed polls, the number of polls issued, and the final state. -/
structure RunOut where
  notifs : List Notif
  delays : List Nat
  recovery : List Nat
  polls : Nat
  final : WatcherState
deriving DecidableEq

/-- Source `_poll_order_updates` loop body over a finite environment of
poll outcomes (`none` = the `order_check` call raised). A failed poll
sleeps 5 and retries (line 150–153); a successful poll processes SMS
entries, emits the combined codes notification when any pair was recorded
(lines 170–171), emits a status-change notification when
`status != last_status` (lines 173–175), breaks on a terminal status
(lines 177–178), and otherwise sleeps `backoff[0] if backoff else 30` and
pops the head when more than one entry remains (lines 181–184). -/
def runWatcher (h : Option String → Option String → Int)
    (st : WatcherState) : List (Option PollResp) → RunOut
  | [] => ⟨[], [], [], 0, st⟩
  | none :: rest =>
      let r := runWatcher h st rest
      ⟨r.notifs, r.delays, 5 :: r.recovery, r.polls + 1, r.final⟩
  | some p :: rest =>
      let sp := pollSms h st.seen p.sms
      let codeNotifs : List Notif :=
        if sp.2 = [] then [] else [.codes sp.2]
      let changed := st.lastStatus ≠ some p.status
      let statusNotifs : List Notif :=
        if changed then [.statusChange p.status] else []
      let ls := if changed then some p.status else st.lastStatus
      if p.status ∈ terminalSet then
        ⟨codeNotifs ++ statusNotifs, [], [], 1, ⟨sp.1, ls, st.backoff⟩⟩
      else
        let delay := st.backoff.headD 30
        let backoff' := if st.backoff.length > 1 then st.backoff.tail else st.backoff
        let r := runWatcher h ⟨sp.1, ls, backoff'⟩ rest
        ⟨codeNotifs ++ statusNotifs ++ r.notifs, delay :: r.delays,
          r.recovery, r.polls + 1, r.final⟩

/-- Source `_format_text` (`app/main.py` line 80): truncate to 4000
characters (Python slice `text[:limit]`, modelled on the character list). -/
def formatText (t : String) : String := ⟨t.data.take 4000⟩

/-- Python `", ".join(new_codes)`. -/
def joinComma : List String → String
  | [] => ""
  | [c] => c
  | c :: rest => c ++ ", " ++ joinComma rest

/-- The exact message text the two `bot.send_message` calls produce
(lines 171 and 175). -/
def renderNotif : Notif → String
  | .codes pairs => formatText ("New code(s) received: " ++ joinComma (pairs.map Prod.snd))
  | .statusChange s => formatText ("Order status: " ++ s)

/-- All `(key, code)` pairs surfaced across a notification list. -/
def notifiedPairs : List Notif → List (Int × String)
  | [] => []
  | .codes ps :: rest => ps ++ notifiedPairs rest
  | .statusChange _ :: rest => notifiedPairs rest

/-- Number of status-change notifications in a notification list. -/
def countStatusNotifs : List Notif → Nat
  | [] => 0
  | .codes _ :: rest => countStatusNotifs rest
  | .statusChange _ :: rest => countStatusNotifs rest + 1

/-- The status values the loop observes: statuses of successful polls, cut
off after (and including) the first terminal one, mirroring the loop's
control flow. -/
def observedStatuses : List (Option PollResp) → List String
  | [] => []
  | none :: rest => observedStatuses rest
  | some p :: rest =>
      p.status :: (if p.status ∈ terminalSet then [] else observedStatuses rest)

/-- Number of successful non-terminal polls the loop processes (each of
which is followed by one backoff sleep). -/
def countSNT : List (Option PollResp) → Nat
  | [] => 0
  | none :: rest => countSNT rest
  | some p :: rest =>
      if p.status ∈ terminalSet then 0 else countSNT rest + 1

/-- Number of maximal runs of equal consecutive values, stated as in the
spec (§8, status-change invariant). -/
def numRunsAux (prev : String) : List String → Nat
  | [] => 0
  | b :: rest => (if b = prev then 0 else 1) + numRunsAux b rest

/-- Number of maximal runs of equal consecutive status values. -/
def numRuns : List String → Nat
  | [] => 0
  | a :: rest => 1 + numRunsAux a rest

/-- The delay the watcher takes after its `i`-th successful non-terminal
poll: the schedule entry when one remains, else the schedule's final
value, held indefinitely. -/
def schedDelay (i : Nat) : Nat :=
  backoffSchedule.getD i (backoffSchedule.getLastD 30)

/-- The backoff list held by the watcher after `k` successful non-terminal
polls. -/
def backoffAfter (k : Nat) : List Nat :=
  backoffSchedule.drop (min k 4)

/-- Number of status-change notifications the loop body emits over a
status list, given the `last_status` value carried in: one per element
whose status differs from the carried value (the loop's
`status != last_status` test), which is then carried forward. -/
def countChanges : Option String → List String → Nat
  | _, [] => 0
  | last, s :: rest =>
      (if last ≠ some s then 1 else 0) + countChanges (some s) rest

/-- A concrete fallback-hash instance used in closed scenario theorems
(all scenario entries carry provider ids, so it is never consulted). -/
def hash0 : Option String → Option String → Int := fun _ _ => 0

/-- The §8 scenario poll sequence: `PENDING` with no SMS, `RECEIVED` with
SMS id 1 / code 123, `RECEIVED` with ids 1 and 2 / codes 123 and 456,
`FINISHED` with the same two SMS entries. -/
def scenarioPolls : List (Option PollResp) :=
  [some ⟨"PENDING", []⟩,
   some ⟨"RECEIVED", [⟨some 1, some "123", none, none⟩]⟩,
   some ⟨"RECEIVED", [⟨some 1, some "123", none, none⟩,
                      ⟨some 2, some "456", none, none⟩]⟩,
   some ⟨"FINISHED", [⟨some 1, some "123", none, none⟩,
                      ⟨some 2, some "456", none, none⟩]⟩]

/-! ## Theorems: TTL cache (C8, C10) -/

/-- C8: `get(key)` returns the value most recently stored by
`set(key, value, ttl)` while the absolute expiry `set` computed has not
passed (leaving the cache unchanged); after the expiry it signals absent
and evicts the expired entry as a side effect of the lookup; a key with no
entry signals absent with no change (lazy eviction, no background sweep). -/
theorem ttl_cache_contract {α : Type} (c : TTLCache α) (t : Nat) (key : String)
    (v : α) (ttl t1 t2 : Nat)
    (h1 : t1 ≤ t + ttl) (h2 : t + ttl < t2) (h3 : c.store key = none) :
    (c.set t key v ttl).get t1 key = (some v, c.set t key v ttl) ∧
    ((c.set t key v ttl).get t2 key).1 = none ∧
    (((c.set t key v ttl).get t2 key).2).store key = none ∧
    c.get t1 key = (none, c) := by
  refine ⟨?_, ?_, ?_, ?_⟩
  · simp [TTLCache.get, TTLCache.set, Nat.not_lt.mpr h1]
  · simp [TTLCache.get, TTLCache.set, h2]
  · simp [TTLCache.get, TTLCache.set, h2]
  · simp [TTLCache.get, h3]

/-- Witness for C8 at a concrete instance: set at time 0 with ttl 10,
live read at time 10, expired read at time 11 on the empty cache. -/
theorem ttl_cache_contract_witness :
    ((TTLCache.empty Nat).set 0 "p" 7 10).get 10 "p" =
      (some 7, (TTLCache.empty Nat).set 0 "p" 7 10) ∧
    (((TTLCache.empty Nat).set 0 "p" 7 10).get 11 "p").1 = none ∧
    ((((TTLCache.empty Nat).set 0 "p" 7 10).get 11 "p").2).store "p" = none ∧
    (TTLCache.empty Nat).get 10 "p" = (none, TTLCache.empty Nat) :=
  ttl_cache_contract (TTLCache.empty Nat) 0 "p" 7 10 10 11
    (by decide) (by decide) rfl

/-- C10: after `set(key, None, ttl)` a `get(key)` returns `None` even
before expiry — indistinguishable at the public interface from the empty
cache's answer — so the `on_prices` caller, which fetches exactly when the
cached value `is None`, always re-issues the fetch. -/
theorem cached_none_indistinguishable {β : Type} (c : TTLCache (Option β))
    (t t' : Nat) (key : String) (ttl : Nat) :
    ((c.set t key none ttl).pyGet t' key).1 = none ∧
    ((c.set t key none ttl).pyGet t' key).1 =
      ((TTLCache.empty (Option β)).pyGet t' key).1 ∧
    pricesWillFetch (c.set t key none ttl) t' key = true := by
  refine ⟨?_, ?_, ?_⟩ <;>
    simp [TTLCache.pyGet, TTLCache.get, TTLCache.set, TTLCache.empty,
      pricesWillFetch] <;>
    split <;> simp

/-! ## Theorems: ProviderClient retry boundary (C4, C5) -/

/-- Helper: when every attempt yields a 429 response, the loop consumes all
remaining attempts and raises the typed 429 error. -/
theorem reqLoop_exhaust_429 (env : Nat → AttemptOutcome) (body : String)
    (henv : ∀ i, env i = .response 429 body) :
    ∀ (left idx : Nat) (lastExc : Option ReqError),
      reqLoopFrom env idx (left + 1) lastExc =
        (.raised (.fivesim 429), left + 1) := by
  have A : ∀ (left idx : Nat),
      reqLoopFrom env idx left (some (.fivesim 429)) =
        (.raised (.fivesim 429), left) := by
    intro left
    induction left with
    | zero => intro idx; rfl
    | succ n ih => intro idx; simp [reqLoopFrom, henv idx, ih]
  intro left idx lastExc
  simp [reqLoopFrom, henv idx, A]

/-- Helper: when every attempt fails at the network level, the loop
consumes all remaining attempts and raises the last network error. -/
theorem reqLoop_exhaust_net (env : Nat → AttemptOutcome)
    (henv : ∀ i, env i = .netError) :
    ∀ (left idx : Nat) (lastExc : Option ReqError),
      reqLoopFrom env idx (left + 1) lastExc = (.raised .net, left + 1) := by
  have A : ∀ (left idx : Nat),
      reqLoopFrom env idx left (some .net) = (.raised .net, left) := by
    intro left
    induction left with
    | zero => intro idx; rfl
    | succ n ih => intro idx; simp [reqLoopFrom, henv idx, ih]
  intro left idx lastExc
  simp [reqLoopFrom, henv idx, A]

/-- C4: a 429 response, like a network-level failure, is retried up to the
configured limit (`retries` additional attempts beyond the first, default
2), after which the last error is raised; any other 400–499 status is
raised as the typed error after exactly one attempt, with no retry. -/
theorem retry_boundary (env1 env2 env3 : Nat → AttemptOutcome)
    (retries s : Nat) (body : String)
    (h400 : 400 ≤ s) (h500 : s < 500) (h429 : s ≠ 429)
    (henv1 : env1 0 = .response s body)
    (henv2 : ∀ i, env2 i = .response 429 body)
    (henv3 : ∀ i, env3 i = .netError) :
    fiveSimRequest env1 retries = (.raised (.fivesim s), 1) ∧
    fiveSimRequest env2 retries = (.raised (.fivesim 429), retries + 1) ∧
    fiveSimRequest env3 retries = (.raised .net, retries + 1) ∧
    defaultRetries = 2 := by
  refine ⟨?_, ?_, ?_, rfl⟩
  · simp [fiveSimRequest, reqLoopFrom, henv1, h400, h500, h429]
  · exact reqLoop_exhaust_429 env2 body henv2 retries 0 none
  · exact reqLoop_exhaust_net env3 henv3 retries 0 none

/-- Witness for C4: a constant-404 environment raises after one attempt; a
constant-429 environment with the default 2 retries raises after three; a
constant network-error environment likewise. -/
theorem retry_boundary_witness :
    fiveSimRequest (fun _ => .response 404 "") 2 = (.raised (.fivesim 404), 1) ∧
    fiveSimRequest (fun _ => .response 429 "") 2 = (.raised (.fivesim 429), 2 + 1) ∧
    fiveSimRequest (fun _ => .netError) 2 = (.raised .net, 2 + 1) ∧
    defaultRetries = 2 :=
  retry_boundary (fun _ => .response 404 "") (fun _ => .response 429 "")
    (fun _ => .netError) 2 404 ""
    (by decide) (by decide) (by decide) rfl (fun _ => rfl) (fun _ => rfl)

/-- C5 counterexample: `buy_activation` itself, called with
`operator="beeline"` and `max_price=5`, does place `maxPrice` among the
query parameters — the operator is never consulted in `buy_activation`. -/
theorem buy_activation_maxPrice_counterexample :
    "maxPrice" ∈ ((buy_activation "russia" "beeline" "telegram"
      none none none none none (some 5)).params.map Prod.fst) := by
  decide

/-- C5 amended: the operator guard lives in the bot's buy flow
(`buy_maxprice`), which passes `max_price` through only when
`operator == "any"`; so the flow's request for `operator="beeline"` (any
max price) is sent without a `maxPrice` parameter. -/
theorem buy_flow_no_maxPrice (country product : String) (mp : Option Int) :
    "maxPrice" ∉ ((buy_flow_request country "beeline" product mp).params.map
      Prod.fst) := by
  simp [buy_flow_request, buy_activation]

/-! ## Theorems: watcher termination and scenarios (C3, C6, C9) -/

/-- Helper: once a successful poll returns a terminal status, everything
after it in the poll environment is irrelevant — the run equals the run on
the sequence truncated right after that poll. -/
theorem runWatcher_stop_at_terminal (h : Option String → Option String → Int)
    (p : PollResp) (hp : p.status ∈ terminalSet) :
    ∀ (l1 : List (Option PollResp)) (st : WatcherState)
      (l2 : List (Option PollResp)),
      runWatcher h st (l1 ++ some p :: l2) = runWatcher h st (l1 ++ [some p]) := by
  intro l1
  induction l1 with
  | nil =>
      intro st l2
      simp [runWatcher, hp]
  | cons a l1 ih =>
      intro st l2
      cases a with
      | none => simp [runWatcher, ih]
      | some q =>
          by_cases hq : q.status ∈ terminalSet <;>
            simp [runWatcher, hq, ih]

/-- Helper: the run never issues more polls than the environment offers. -/
theorem runWatcher_polls_le (h : Option String → Option String → Int)
    (ps : List (Option PollResp)) :
    ∀ st : WatcherState, (runWatcher h st ps).polls ≤ ps.length := by
  induction ps with
  | nil => intro st; simp [runWatcher]
  | cons a rest ih =>
      intro st
      cases a with
      | none => simpa [runWatcher] using ih st
      | some q =>
          by_cases hq : q.status ∈ terminalSet
          · simp [runWatcher, hq]
          · simpa [runWatcher, hq] using ih _

/-- C3: when a poll sequence reaches a status in
`{FINISHED, CANCELED, TIMEOUT, BANNED}`, the watcher run is identical to
the run on the sequence cut right after that poll — no further polls are
issued (at most `l1.length + 1` in total) and no further notifications,
delays, or state changes occur after that iteration. -/
theorem watcher_termination (h : Option String → Option String → Int)
    (l1 l2 : List (Option PollResp)) (p : PollResp)
    (hp : p.status ∈ terminalSet) :
    runWatcher h initState (l1 ++ some p :: l2) =
      runWatcher h initState (l1 ++ [some p]) ∧
    (runWatcher h initState (l1 ++ some p :: l2)).polls ≤ l1.length + 1 := by
  refine ⟨runWatcher_stop_at_terminal h p hp l1 initState l2, ?_⟩
  rw [runWatcher_stop_at_terminal h p hp l1 initState l2]
  have := runWatcher_polls_le h (l1 ++ [some p]) initState
  simpa using this

/-- Witness for C3: a `FINISHED` poll followed by a further `PENDING` poll
gives the same run as the `FINISHED` poll alone, with one poll issued. -/
theorem watcher_termination_witness :
    runWatcher hash0 initState
        ([] ++ some ⟨"FINISHED", []⟩ :: [some ⟨"PENDING", []⟩]) =
      runWatcher hash0 initState ([] ++ [some ⟨"FINISHED", []⟩]) ∧
    (runWatcher hash0 initState
        ([] ++ some ⟨"FINISHED", []⟩ :: [some ⟨"PENDING", []⟩])).polls ≤
      List.length ([] : List (Option PollResp)) + 1 :=
  watcher_termination hash0 [] [some ⟨"PENDING", []⟩] ⟨"FINISHED", []⟩
    (by decide)

/-- C6 counterexample: on the §8 scenario the watcher does **not** emit
the spec's claimed order (status `RECEIVED` before code `123`): the codes
notification of an iteration precedes its status-change notification. -/
theorem scenario_order_counterexample :
    ¬ ((runWatcher hash0 initState scenarioPolls).notifs.map renderNotif =
      ["Order status: PENDING", "Order status: RECEIVED",
       "New code(s) received: 123", "New code(s) received: 456",
       "Order status: FINISHED"]) := by
  decide

/-- C6 amended: on the §8 scenario the watcher emits exactly
`"Order status: PENDING"`, `"New code(s) received: 123"`,
`"Order status: RECEIVED"`, `"New code(s) received: 456"`,
`"Order status: FINISHED"`, in that order (within an iteration the
combined-codes message precedes the status-change message), and then
stops: any further poll outcomes leave the run unchanged. -/
theorem scenario_notifications :
    (runWatcher hash0 initState scenarioPolls).notifs.map renderNotif =
      ["Order status: PENDING", "New code(s) received: 123",
       "Order status: RECEIVED", "New code(s) received: 456",
       "Order status: FINISHED"] ∧
    ∀ extra : List (Option PollResp),
      runWatcher hash0 initState (scenarioPolls ++ extra) =
        runWatcher hash0 initState scenarioPolls := by
  constructor
  · decide
  · intro extra
    have := runWatcher_stop_at_terminal hash0
      ⟨"FINISHED", [⟨some 1, some "123", none, none⟩,
                    ⟨some 2, some "456", none, none⟩]⟩
      (by decide)
      [some ⟨"PENDING", []⟩,
       some ⟨"RECEIVED", [⟨some 1, some "123", none, none⟩]⟩,
       some ⟨"RECEIVED", [⟨some 1, some "123", none, none⟩,
                          ⟨some 2, some "456", none, none⟩]⟩]
      initState extra
    simpa [scenarioPolls] using this

/-! ## Theorems: dedup invariant (C1) -/

/-- Helper: `notifiedPairs` distributes over append. -/
theorem notifiedPairs_append (a b : List Notif) :
    notifiedPairs (a ++ b) = notifiedPairs a ++ notifiedPairs b := by
  induction a with
  | nil => rfl
  | cons n rest ih =>
      cases n <;> simp [notifiedPairs, ih]

/-- Helper: processing an SMS list only grows the seen-set. -/
theorem pollSms_seen_mono (h : Option String → Option String → Int) :
    ∀ (l : List SmsEntry) (seen : List Int) (x : Int),
      x ∈ seen → x ∈ (pollSms h seen l).1 := by
  intro l
  induction l with
  | nil => intro seen x hx; simpa [pollSms] using hx
  | cons s rest ih =>
      intro seen x hx
      by_cases hs : smsKey h s ∈ seen
      · simpa [pollSms, hs] using ih seen x hx
      · simpa [pollSms, hs] using ih _ x (List.mem_cons_of_mem _ hx)

/-- Helper: the `(key, code)` pairs recorded while processing one SMS list
have pairwise-distinct keys, every recorded key was absent from the
incoming seen-set, and every recorded key is in the outgoing seen-set. -/
theorem pollSms_pairs (h : Option String → Option String → Int) :
    ∀ (l : List SmsEntry) (seen : List Int),
      ((pollSms h seen l).2.map Prod.fst).Nodup ∧
      (∀ k, k ∈ (pollSms h seen l).2.map Prod.fst →
        k ∉ seen ∧ k ∈ (pollSms h seen l).1) := by
  intro l
  induction l with
  | nil => intro seen; simp [pollSms]
  | cons s rest ih =>
      intro seen
      by_cases hs : smsKey h s ∈ seen
      · simpa [pollSms, hs] using ih seen
      · obtain ⟨ihN, ihK⟩ := ih (smsKey h s :: seen)
        have hfstEq : (pollSms h seen (s :: rest)).1 =
            (pollSms h (smsKey h s :: seen) rest).1 := by
          simp [pollSms, hs]
        have hsndEq : (pollSms h seen (s :: rest)).2 =
            match s.code with
            | some c => if c = "" then (pollSms h (smsKey h s :: seen) rest).2
                        else (smsKey h s, c) :: (pollSms h (smsKey h s :: seen) rest).2
            | none => (pollSms h (smsKey h s :: seen) rest).2 := by
          simp [pollSms, hs]
        rw [hfstEq, hsndEq]
        cases hc : s.code with
        | none =>
            exact ⟨ihN, fun k hk => ⟨fun hk' =>
              (ihK k hk).1 (List.mem_cons_of_mem _ hk'), (ihK k hk).2⟩⟩
        | some c =>
            by_cases hce : c = ""
            · simp only [hce, if_pos rfl]
              exact ⟨ihN, fun k hk => ⟨fun hk' =>
                (ihK k hk).1 (List.mem_cons_of_mem _ hk'), (ihK k hk).2⟩⟩
            · simp only [if_neg hce, List.map_cons, List.nodup_cons,
                List.mem_cons]
              refine ⟨⟨fun hmem => (ihK _ hmem).1 (List.mem_cons_self _ _), ihN⟩,
                fun k hk => ?_⟩
              rcases hk with hk | hk
              · subst hk
                exact ⟨hs, pollSms_seen_mono h rest _ _ (List.mem_cons_self _ _)⟩
              · exact ⟨fun hk' => (ihK k hk).1 (List.mem_cons_of_mem _ hk'),
                  (ihK k hk).2⟩

/-- Helper: across a whole run, the recorded `(key, code)` pairs have
pairwise-distinct keys; every such key was absent from the starting
seen-set and is present in the final seen-set, and the seen-set only
grows. -/
theorem runWatcher_pairs (h : Option String → Option String → Int)
    (ps : List (Option PollResp)) :
    ∀ st : WatcherState,
      ((notifiedPairs (runWatcher h st ps).notifs).map Prod.fst).Nodup ∧
      (∀ k, k ∈ (notifiedPairs (runWatcher h st ps).notifs).map Prod.fst →
        k ∉ st.seen ∧ k ∈ (runWatcher h st ps).final.seen) ∧
      (∀ x ∈ st.seen, x ∈ (runWatcher h st ps).final.seen) := by
  induction ps with
  | nil => intro st; simp [runWatcher, notifiedPairs]
  | cons a rest ih =>
      intro st
      cases a with
      | none => simpa [runWatcher] using ih st
      | some q =>
          have hq1 := pollSms_pairs h q.sms st.seen
          have hq2 := pollSms_seen_mono h q.sms st.seen
          by_cases hq : q.status ∈ terminalSet
          · have hnp : notifiedPairs
                ((if (pollSms h st.seen q.sms).2 = [] then []
                  else [Notif.codes (pollSms h st.seen q.sms).2]) ++
                 (if st.lastStatus ≠ some q.status then
                    [Notif.statusChange q.status] else [])) =
                (pollSms h st.seen q.sms).2 := by
              rw [notifiedPairs_append]
              split <;> split <;> simp_all [notifiedPairs]
            simp only [runWatcher, if_pos hq]
            refine ⟨?_, ?_, ?_⟩
            · rw [hnp]
              exact hq1.1
            · intro k hk
              rw [hnp] at hk
              exact (hq1.2 k hk)
            · exact hq2
          · have hnp : ∀ tailNotifs : List Notif, notifiedPairs
                ((if (pollSms h st.seen q.sms).2 = [] then []
                  else [Notif.codes (pollSms h st.seen q.sms).2]) ++
                 (if st.lastStatus ≠ some q.status then
                    [Notif.statusChange q.status] else []) ++ tailNotifs) =
                (pollSms h st.seen q.sms).2 ++ notifiedPairs tailNotifs := by
              intro tailNotifs
              rw [notifiedPairs_append, notifiedPairs_append]
              split <;> split <;> simp_all [notifiedPairs]
            obtain ⟨ihN, ihK, ihM⟩ := ih ⟨(pollSms h st.seen q.sms).1,
              if st.lastStatus ≠ some q.status then some q.status
              else st.lastStatus,
              if st.backoff.length > 1 then st.backoff.tail else st.backoff⟩
            simp only [runWatcher, if_neg hq]
            refine ⟨?_, ?_, ?_⟩
            · rw [hnp _, List.map_append, List.nodup_append]
              refine ⟨hq1.1, ihN, fun k hk hk' => ?_⟩
              exact (ihK k hk').1 ((hq1.2 k hk).2)
            · intro k hk
              rw [hnp _, List.map_append, List.mem_append] at hk
              rcases hk with hk | hk
              · exact ⟨(hq1.2 k hk).1, ihM k ((hq1.2 k hk).2)⟩
              · exact ⟨fun hk' => (ihK k hk).1 (hq2 k hk'), (ihK k hk).2⟩
            · intro x hx
              exact ihM x (hq2 x hx)

/-- C1: over any watcher run — any fallback hash, any poll sequence with
arbitrarily overlapping SMS lists — the keys of the notified
`(dedup-key, code)` pairs are pairwise distinct: each distinct SmsEvent id
(provider id, or fingerprint of `(text, date)` when absent) results in at
most one notified code across the whole run. -/
theorem dedup_invariant (h : Option String → Option String → Int)
    (ps : List (Option PollResp)) :
    ((notifiedPairs (runWatcher h initState ps).notifs).map Prod.fst).Nodup :=
  (runWatcher_pairs h ps initState).1

/-! ## Theorems: status-change invariant (C2) -/

/-- Helper: `countStatusNotifs` distributes over append. -/
theorem countStatusNotifs_append (a b : List Notif) :
    countStatusNotifs (a ++ b) = countStatusNotifs a + countStatusNotifs b := by
  induction a with
  | nil => simp [countStatusNotifs]
  | cons n rest ih =>
      cases n with
      | codes ps => simp [countStatusNotifs, ih]
      | statusChange s =>
          simp [countStatusNotifs, ih]
          omega

/-- Helper: the number of status-change notifications a run emits is
`countChanges` of the carried `last_status` over the observed statuses. -/
theorem runWatcher_statusCount (h : Option String → Option String → Int)
    (ps : List (Option PollResp)) :
    ∀ st : WatcherState,
      countStatusNotifs (runWatcher h st ps).notifs =
        countChanges st.lastStatus (observedStatuses ps) := by
  induction ps with
  | nil =>
      intro st
      simp [runWatcher, observedStatuses, countStatusNotifs, countChanges]
  | cons a rest ih =>
      intro st
      cases a with
      | none => simpa [runWatcher, observedStatuses] using ih st
      | some q =>
          have hc0 : countStatusNotifs
              (if (pollSms h st.seen q.sms).2 = [] then []
               else [Notif.codes (pollSms h st.seen q.sms).2]) = 0 := by
            split <;> rfl
          have hs1 : countStatusNotifs
              (if st.lastStatus ≠ some q.status then
                 [Notif.statusChange q.status] else []) =
              if st.lastStatus ≠ some q.status then 1 else 0 := by
            split <;> rfl
          by_cases hq : q.status ∈ terminalSet
          · simp only [runWatcher, if_pos hq, observedStatuses]
            rw [countStatusNotifs_append, hc0, hs1]
            simp [countChanges]
          · have hls : (if st.lastStatus ≠ some q.status then some q.status
                else st.lastStatus) = some q.status := by
              split <;> simp_all
            have ihr := ih ⟨(pollSms h st.seen q.sms).1, some q.status,
              if st.backoff.length > 1 then st.backoff.tail else st.backoff⟩
            simp only [runWatcher, if_neg hq, observedStatuses]
            rw [countStatusNotifs_append, countStatusNotifs_append, hc0, hs1,
              hls, ihr]
            simp only [countChanges]
            omega

/-- Helper: `countChanges` from a definite previous value counts exactly
the boundaries between maximal runs after that value. -/
theorem countChanges_some (a : String) :
    ∀ l : List String, countChanges (some a) l = numRunsAux a l := by
  intro l
  induction l generalizing a with
  | nil => rfl
  | cons b rest ih =>
      simp only [countChanges, numRunsAux, ih]
      by_cases hba : b = a
      · subst hba; simp
      · simp [hba, Ne.symm hba]

/-- Helper: `countChanges` from the `None` sentinel counts the maximal
runs of equal consecutive values. -/
theorem countChanges_none (l : List String) :
    countChanges none l = numRuns l := by
  cases l with
  | nil => rfl
  | cons a rest => simp [countChanges, numRuns, countChanges_some]

/-- C2: the number of status-change notifications a run emits equals the
number of maximal runs of equal consecutive values among the statuses
observed across its successful polls; in particular, as soon as any
status is observed at least one status notification is emitted, because
the first observed status differs from the initial `last_status = None`
sentinel. -/
theorem status_change_invariant (h : Option String → Option String → Int)
    (ps : List (Option PollResp)) :
    countStatusNotifs (runWatcher h initState ps).notifs =
      numRuns (observedStatuses ps) ∧
    (observedStatuses ps ≠ [] →
      1 ≤ countStatusNotifs (runWatcher h initState ps).notifs) := by
  have e := runWatcher_statusCount h ps initState
  have e2 : countStatusNotifs (runWatcher h initState ps).notifs =
      numRuns (observedStatuses ps) := by
    rw [e]; exact countChanges_none _
  refine ⟨e2, fun hne => ?_⟩
  rw [e2]
  cases hobs : observedStatuses ps with
  | nil => exact absurd hobs hne
  | cons a rest => simp [numRuns]

/-- Witness for C2 at the §8 scenario: four observed statuses
`PENDING, RECEIVED, RECEIVED, FINISHED` form three maximal runs, and the
run emits at least one (exactly three) status notifications. -/
theorem status_change_invariant_witness :
    countStatusNotifs (runWatcher hash0 initState scenarioPolls).notifs =
      numRuns (observedStatuses scenarioPolls) ∧
    1 ≤ countStatusNotifs (runWatcher hash0 initState scenarioPolls).notifs :=
  ⟨(status_change_invariant hash0 scenarioPolls).1,
   (status_change_invariant hash0 scenarioPolls).2 (by decide)⟩

/-! ## Theorems: backoff monotonicity (C7) -/

/-- Helper: the delay the loop reads from the backoff list after `k`
successful non-terminal polls is the schedule entry `k` (capped at the
final value). -/
theorem backoffAfter_head (k : Nat) :
    (backoffAfter k).headD 30 = schedDelay k := by
  rcases k with _ | _ | _ | _ | _ | k
  · rfl
  · rfl
  · rfl
  · rfl
  · rfl
  · have h4 : min (k + 5) 4 = 4 := by omega
    have hd : schedDelay (k + 5) = 30 := by
      have : backoffSchedule.length ≤ k + 5 := by simp [backoffSchedule]
      simp [schedDelay, List.getD_eq_default _ _ this, backoffSchedule]
    rw [hd]
    simp [backoffAfter, h4, backoffSchedule]

/-- Helper: popping the head (only while more than one entry remains)
advances the backoff list one schedule position. -/
theorem backoffAfter_step (k : Nat) :
    (if (backoffAfter k).length > 1 then (backoffAfter k).tail
     else backoffAfter k) = backoffAfter (k + 1) := by
  rcases k with _ | _ | _ | _ | _ | k
  · rfl
  · rfl
  · rfl
  · rfl
  · rfl
  · have h4 : min (k + 5) 4 = 4 := by omega
    have h5 : min (k + 5 + 1) 4 = 4 := by omega
    simp [backoffAfter, h4, h5, backoffSchedule]

/-- Helper: the per-position delay is non-decreasing step by step. -/
theorem schedDelay_step (i : Nat) : schedDelay i ≤ schedDelay (i + 1) := by
  rcases i with _ | _ | _ | _ | _ | i
  · decide
  · decide
  · decide
  · decide
  · decide
  · have h1 : backoffSchedule.length ≤ i + 5 := by simp [backoffSchedule]
    have h2 : backoffSchedule.length ≤ i + 5 + 1 := by simp [backoffSchedule]
    have e1 : schedDelay (i + 5) = 30 := by
      simp [schedDelay, List.getD_eq_default _ _ h1, backoffSchedule]
    have e2 : schedDelay (i + 5 + 1) = 30 := by
      simp [schedDelay, List.getD_eq_default _ _ h2, backoffSchedule]
    rw [e1, e2]

/-- Helper: the per-position delay is monotone. -/
theorem schedDelay_mono : Monotone schedDelay :=
  monotone_nat_of_le_succ schedDelay_step

/-- Helper: a run started with the backoff list at schedule position `k`
sleeps exactly the schedule delays at positions `k, k+1, …`, one per
successful non-terminal poll. -/
theorem runWatcher_delays (h : Option String → Option String → Int)
    (ps : List (Option PollResp)) :
    ∀ (k : Nat) (st : WatcherState), st.backoff = backoffAfter k →
      (runWatcher h st ps).delays =
        (List.range' k (countSNT ps)).map schedDelay := by
  induction ps with
  | nil => intro k st hst; simp [runWatcher, countSNT]
  | cons a rest ih =>
      intro k st hst
      cases a with
      | none => simpa [runWatcher, countSNT] using ih k st hst
      | some q =>
          by_cases hq : q.status ∈ terminalSet
          · simp [runWatcher, hq, countSNT]
          · have hd : st.backoff.headD 30 = schedDelay k := by
              rw [hst]; exact backoffAfter_head k
            have hb : (if st.backoff.length > 1 then st.backoff.tail
                else st.backoff) = backoffAfter (k + 1) := by
              rw [hst]; exact backoffAfter_step k
            have ihr := ih (k + 1) ⟨(pollSms h st.seen q.sms).1,
              if st.lastStatus ≠ some q.status then some q.status
              else st.lastStatus,
              if st.backoff.length > 1 then st.backoff.tail else st.backoff⟩
              hb
            simp only [runWatcher, if_neg hq, countSNT]
            rw [hd, ihr, List.range'_succ]
            simp

/-- C7: the inter-poll delays taken after successful non-terminal polls
are exactly the backoff schedule entries in order, the final value
repeating once the schedule is exhausted, and the delay sequence is
monotonically non-decreasing. -/
theorem backoff_monotonicity (h : Option String → Option String → Int)
    (ps : List (Option PollResp)) :
    (runWatcher h initState ps).delays =
      (List.range (countSNT ps)).map schedDelay ∧
    List.Pairwise (· ≤ ·) (runWatcher h initState ps).delays := by
  have e : (runWatcher h initState ps).delays =
      (List.range (countSNT ps)).map schedDelay := by
    rw [List.range_eq_range']
    exact runWatcher_delays h ps 0 initState rfl
  refine ⟨e, ?_⟩
  rw [e]
  exact (List.pairwise_lt_range _).map schedDelay
    (fun a b hab => schedDelay_mono (Nat.le_of_lt hab))

/-! ## Theorems: seen-set absorption of uncoded SMS ids (C9) -/

/-- Helper: every entry of a processed SMS list has its dedup key in the
resulting seen-set, whether or not the entry carries a code. -/
theorem pollSms_observes (h : Option String → Option String → Int) :
    ∀ (l : List SmsEntry) (seen : List Int) (e : SmsEntry),
      e ∈ l → smsKey h e ∈ (pollSms h seen l).1 := by
  intro l
  induction l with
  | nil => intro seen e he; simp at he
  | cons s rest ih =>
      intro seen e he
      rcases List.mem_cons.mp he with rfl | he'
      · by_cases hs : smsKey h e ∈ seen
        · simpa [pollSms, hs] using pollSms_seen_mono h rest seen _ hs
        · simpa [pollSms, hs] using
            pollSms_seen_mono h rest _ _ (List.mem_cons_self _ _)
      · by_cases hs : smsKey h s ∈ seen
        · simpa [pollSms, hs] using ih seen e he'
        · simpa [pollSms, hs] using ih _ e he'

/-- Helper: over a poll list with no terminal successful poll, every SMS
entry of every successful poll gets its dedup key into the final
seen-set. -/
theorem runWatcher_observes (h : Option String → Option String → Int) :
    ∀ (ps : List (Option PollResp)) (st : WatcherState) (p : PollResp)
      (e : SmsEntry),
      (∀ q : PollResp, some q ∈ ps → q.status ∉ terminalSet) →
      some p ∈ ps → e ∈ p.sms →
      smsKey h e ∈ (runWatcher h st ps).final.seen := by
  intro ps
  induction ps with
  | nil => intro st p e hnt hp he; simp at hp
  | cons a rest ih =>
      intro st p e hnt hp he
      rcases List.mem_cons.mp hp with ha | hp'
      · subst ha
        have hqnt : p.status ∉ terminalSet := hnt p (List.mem_cons_self _ _)
        have hkey : smsKey h e ∈ (pollSms h st.seen p.sms).1 :=
          pollSms_observes h p.sms st.seen e he
        have hmono := (runWatcher_pairs h rest ⟨(pollSms h st.seen p.sms).1,
          if st.lastStatus ≠ some p.status then some p.status
          else st.lastStatus,
          if st.backoff.length > 1 then st.backoff.tail else st.backoff⟩).2.2
        simp only [runWatcher, if_neg hqnt]
        exact hmono _ hkey
      · cases a with
        | none =>
            simp only [runWatcher]
            exact ih st p e (fun q hq => hnt q (List.mem_cons_of_mem _ hq))
              hp' he
        | some q =>
            have hqnt : q.status ∉ terminalSet :=
              hnt q (List.mem_cons_self _ _)
            simp only [runWatcher, if_neg hqnt]
            exact ih _ p e (fun r hr => hnt r (List.mem_cons_of_mem _ hr))
              hp' he

/-- Helper: a run over `ps1 ++ ps2`, where `ps1` contains no terminal
successful poll, is the run over `ps1` followed by the run over `ps2`
started from the intermediate state: notifications, delays, recovery
sleeps and poll counts concatenate/add, and the final state is that of
the continuation. -/
theorem runWatcher_append (h : Option String → Option String → Int)
    (ps2 : List (Option PollResp)) :
    ∀ ps1 : List (Option PollResp),
      (∀ q : PollResp, some q ∈ ps1 → q.status ∉ terminalSet) →
      ∀ st : WatcherState, runWatcher h st (ps1 ++ ps2) =
        ⟨(runWatcher h st ps1).notifs ++
           (runWatcher h (runWatcher h st ps1).final ps2).notifs,
         (runWatcher h st ps1).delays ++
           (runWatcher h (runWatcher h st ps1).final ps2).delays,
         (runWatcher h st ps1).recovery ++
           (runWatcher h (runWatcher h st ps1).final ps2).recovery,
         (runWatcher h st ps1).polls +
           (runWatcher h (runWatcher h st ps1).final ps2).polls,
         (runWatcher h (runWatcher h st ps1).final ps2).final⟩ := by
  intro ps1
  induction ps1 with
  | nil =>
      intro _ st
      simp [runWatcher]
  | cons a rest ih =>
      intro hnt st
      cases a with
      | none =>
          simp only [List.cons_append, runWatcher, List.append_eq]
          rw [ih (fun q hq => hnt q (List.mem_cons_of_mem _ hq)) st]
          simp [Nat.add_right_comm]
      | some q =>
          have hqnt : q.status ∉ terminalSet := hnt q (List.mem_cons_self _ _)
          simp only [List.cons_append, runWatcher, if_neg hqnt,
            List.append_eq]
          rw [ih (fun r hr => hnt r (List.mem_cons_of_mem _ hr)) _]
          simp [List.append_assoc, Nat.add_right_comm]

/-- C9: in every watcher run, an SMS entry's dedup key is added to the
seen-set when the entry is first observed even when it carries no code,
and consequently a code arriving later under the same key is never
notified: for any run decomposed as `ps1 ++ ps2` with no terminal poll in
`ps1`, if some successful poll of `ps1` carried an entry `e` with no
code, then the full run is the `ps1` run followed by the continuation,
`e`'s key is in the seen-set the continuation starts from, and no
notified code of the continuation carries that key. -/
theorem uncoded_id_suppresses_later_code
    (h : Option String → Option String → Int)
    (ps1 ps2 : List (Option PollResp)) (p : PollResp) (e : SmsEntry)
    (hnt : ∀ q : PollResp, some q ∈ ps1 → q.status ∉ terminalSet)
    (hp : some p ∈ ps1) (he : e ∈ p.sms) (_hcode : e.code = none) :
    (runWatcher h initState (ps1 ++ ps2)).notifs =
      (runWatcher h initState ps1).notifs ++
      (runWatcher h (runWatcher h initState ps1).final ps2).notifs ∧
    smsKey h e ∈ (runWatcher h initState ps1).final.seen ∧
    smsKey h e ∉ (notifiedPairs
      (runWatcher h (runWatcher h initState ps1).final ps2).notifs).map
        Prod.fst := by
  have hobs : smsKey h e ∈ (runWatcher h initState ps1).final.seen :=
    runWatcher_observes h ps1 initState p e hnt hp he
  refine ⟨?_, hobs, ?_⟩
  · rw [runWatcher_append h ps2 ps1 hnt initState]
  · intro hk
    exact ((runWatcher_pairs h ps2
      (runWatcher h initState ps1).final).2.1 _ hk).1 hobs

/-- Witness for C9: a `PENDING` poll delivering SMS id 1 with no code,
followed by a `FINISHED` poll re-delivering id 1 with code `77`: the key
is seen after the first poll and no code under key 1 is notified in the
continuation. -/
theorem uncoded_id_suppresses_later_code_witness :
    (runWatcher hash0 initState
        ([some ⟨"PENDING", [⟨some 1, none, none, none⟩]⟩] ++
         [some ⟨"FINISHED", [⟨some 1, some "77", none, none⟩]⟩])).notifs =
      (runWatcher hash0 initState
        [some ⟨"PENDING", [⟨some 1, none, none, none⟩]⟩]).notifs ++
      (runWatcher hash0 (runWatcher hash0 initState
          [some ⟨"PENDING", [⟨some 1, none, none, none⟩]⟩]).final
        [some ⟨"FINISHED", [⟨some 1, some "77", none, none⟩]⟩]).notifs ∧
    smsKey hash0 ⟨some 1, none, none, none⟩ ∈
      (runWatcher hash0 initState
        [some ⟨"PENDING", [⟨some 1, none, none, none⟩]⟩]).final.seen ∧
    smsKey hash0 ⟨some 1, none, none, none⟩ ∉ (notifiedPairs
      (runWatcher hash0 (runWatcher hash0 initState
          [some ⟨"PENDING", [⟨some 1, none, none, none⟩]⟩]).final
        [some ⟨"FINISHED", [⟨some 1, some "77", none, none⟩]⟩]).notifs).map
          Prod.fst :=
  uncoded_id_suppresses_later_code hash0
    [some ⟨"PENDING", [⟨some 1, none, none, none⟩]⟩]
    [some ⟨"FINISHED", [⟨some 1, some "77", none, none⟩]⟩]
    ⟨"PENDING", [⟨some 1, none, none, none⟩]⟩
    ⟨some 1, none, none, none⟩
    (by intro q hq; simp at hq; subst hq; decide)
    (by decide) (by decide) rfl

end ViranumPro
